import Mathlib

/-!
# CloudDeploy orchestration engine — verification development

Shallow embedding of `server.js` of the CloudDeploy repository: the port
allocator, tunnel provisioner, deployment handlers, deletion path and the
startup reconciliation, together with theorems settling the specification's
testable properties against this embedding.

External effects (the container engine, the spawned tunnel subprocess, the
database, the filesystem) are modelled by explicit state components and by
boolean parameters saying whether a given external call succeeded, so every
definition is executable.
-/

namespace CloudDeploy

/-! ## Small association-map helpers (JS `Map` get/set/delete semantics) -/

/-- `Map.get(k)`: first binding with the given key, if any. -/
def mapGet {α : Type} (m : List (String × α)) (k : String) : Option α :=
  (m.find? (fun kv => kv.1 = k)).map (fun kv => kv.2)

/-- `Map.delete(k)`: drop the binding for the key. -/
def mapDelete {α : Type} (m : List (String × α)) (k : String) : List (String × α) :=
  m.filter (fun kv => ¬ kv.1 = k)

/-- `Map.set(k, v)`: bind the key to the value, replacing any older binding. -/
def mapSet {α : Type} (m : List (String × α)) (k : String) (v : α) : List (String × α) :=
  (k, v) :: mapDelete m k

/-! ## Port Allocator (`getRandomPort`, `releasePort`, `usedPorts`)

The JS candidate `Math.floor(Math.random() * (9999 - 5000) + 5000)` is an
integer `5000 + f` with `f ∈ [0, 4998]`; the random source is modelled as an
arbitrary function `rand : ℕ → ℕ` of the attempt index, reduced mod 4999 so
a candidate is exactly a value the JS expression can take. -/

/-- Candidate probed at a given attempt index. -/
def portCandidate (rand : Nat → Nat) (attempt : Nat) : Nat :=
  5000 + rand attempt % 4999

/-- The `while (attempts < 100)` probe loop of `getRandomPort`, with `fuel`
remaining attempts. `none` models the `throw new Error('Unable to find
available port')` after the loop. -/
def getRandomPortGo (rand : Nat → Nat) (used : Finset Nat) (attempt : Nat) :
    Nat → Option (Nat × Finset Nat)
  | 0 => none
  | fuel + 1 =>
    let port := portCandidate rand attempt
    if port ∈ used then getRandomPortGo rand used (attempt + 1) fuel
    else some (port, insert port used)

/-- `getRandomPort()`: probe up to 100 random candidates against `usedPorts`;
on success the port is added to the used set before being returned. -/
def getRandomPort (rand : Nat → Nat) (used : Finset Nat) : Option (Nat × Finset Nat) :=
  getRandomPortGo rand used 0 100

/-- `releasePort(port)`: `if (port) usedPorts.delete(port)`; the JS guard
`if (port)` is falsity of `0` for a numeric port. -/
def releasePort (port : Nat) (used : Finset Nat) : Finset Nat :=
  if port = 0 then used else used.erase port

/-! ## Input validation (`validateDockerImage`, `validatePort`, `validateGitRepo`) -/

/-- Character class `[-a-zA-Z0-9._/]` of the image-name part (the source
writes the dash last, after an escaped slash). -/
def isImageChar (c : Char) : Bool :=
  c.isAlpha || c.isDigit || c = '.' || c = '_' || c = '/' || c = '-'

/-- Character class `[a-zA-Z0-9._-]` of the tag part. -/
def isTagChar (c : Char) : Bool :=
  c.isAlpha || c.isDigit || c = '.' || c = '_' || c = '-'

/-- The alternative `^[-a-zA-Z0-9._/]+:[a-zA-Z0-9._-]+$` of the image regex.
Both classes exclude `:`, so the regex's colon is the first colon of the
string and the greedy name part is exactly `takeWhile`. -/
def imageWithTag (cs : List Char) : Bool :=
  let name := cs.takeWhile (fun c => ¬ c = ':')
  match cs.dropWhile (fun c => ¬ c = ':') with
  | ':' :: tag =>
      decide (¬ name = []) && name.all isImageChar &&
      decide (¬ tag = []) && tag.all isTagChar
  | _ => false

/-- `validateDockerImage(image)`: non-empty string shorter than 256 chars
matching `^[…]+:[…]+$|^[…]+$`. -/
def validateDockerImage (image : String) : Bool :=
  let cs := image.toList
  (imageWithTag cs || (decide (¬ cs = []) && cs.all isImageChar)) &&
    decide (image.length < 256)

/-- Decimal value of a digit run. -/
def digitsVal (ds : List Char) : Nat :=
  ds.foldl (fun a c => a * 10 + (c.toNat - '0'.toNat)) 0

/-- JS `parseInt` restricted to the shapes the server receives: optional
leading spaces, optional sign, then decimal digits; `none` models `NaN`.
(Hexadecimal-prefix detection of full `parseInt` is not reachable from the
validators' accepted inputs and is omitted.) -/
def parseIntJS (s : String) : Option Int :=
  let cs := s.toList.dropWhile (fun c => c = ' ')
  let signed : Bool × List Char :=
    match cs with
    | '-' :: rest => (true, rest)
    | '+' :: rest => (false, rest)
    | _ => (false, cs)
  let digits := signed.2.takeWhile Char.isDigit
  if digits = [] then none
  else some ((if signed.1 then (-1 : Int) else 1) * (digitsVal digits : Int))

/-- `validatePort(port)`: `parseInt` is a number with `0 < n ≤ 65535`. -/
def validatePort (port : String) : Bool :=
  match parseIntJS port with
  | none => false
  | some n => decide (0 < n) && decide (n ≤ 65535)

/-- Character class `[\w\.-]` used by the git-repo regex. -/
def isWordDotDash (c : Char) : Bool :=
  c.isAlpha || c.isDigit || c = '_' || c = '.' || c = '-'

/-- Split a char list on a separator character. -/
def splitOnChar (sep : Char) : List Char → List (List Char)
  | [] => [[]]
  | c :: cs =>
    let r := splitOnChar sep cs
    if c = sep then [] :: r
    else
      match r with
      | s :: rest => (c :: s) :: rest
      | [] => [[c]]

/-- Tail of the git-repo regex, `([\w\.-]+\/)*[\w\.-]+(\.git)?$`: since `.`,
`g`, `i`, `t` are all in `[\w\.-]`, this is exactly "slash-separated segments,
each non-empty and drawn from the class, with no trailing slash". -/
def gitPathOk (cs : List Char) : Bool :=
  (splitOnChar '/' cs).all (fun seg => decide (¬ seg = []) && seg.all isWordDotDash)

/-- Scheme alternatives `(https?:\/\/|git@)` of the git-repo regex. -/
def stripGitScheme (cs : List Char) : Option (List Char) :=
  if ("https://".toList).isPrefixOf cs then some (cs.drop 8)
  else if ("http://".toList).isPrefixOf cs then some (cs.drop 7)
  else if ("git@".toList).isPrefixOf cs then some (cs.drop 4)
  else none

/-- The body of `^(https?:\/\/|git@)[\w\.-]+[\/:](…)$`: the host class
excludes `/` and `:`, so the greedy host is `takeWhile` and the separator is
the first char after it. -/
def matchGitRepo (cs : List Char) : Bool :=
  match stripGitScheme cs with
  | none => false
  | some rest =>
    let host := rest.takeWhile isWordDotDash
    decide (¬ host = []) &&
      (match rest.dropWhile isWordDotDash with
       | sep :: tail => (sep = '/' || sep = ':') && gitPathOk tail
       | [] => false)

/-- `validateGitRepo(repo)`: regex match and length below 512. -/
def validateGitRepo (repo : String) : Bool :=
  matchGitRepo repo.toList && decide (repo.length < 512)

/-! ## Admission limit (`checkDeploymentLimit`) -/

/-- `checkDeploymentLimit()` throws iff `deployments.size >= MAX_DEPLOYMENTS`;
`true` models the throw. -/
def checkDeploymentLimit (maxDeployments : Nat) (count : Nat) : Bool :=
  decide (maxDeployments ≤ count)

/-- The message of the admission error. -/
def deploymentLimitMessage (maxDeployments : Nat) : String :=
  s!"Deployment limit reached ({maxDeployments}). Please delete some deployments first."

/-! ## Tunnel Provisioner (`createPublicTunnel`)

`createPublicTunnel` spawns `cloudflared`, accumulates its stdout/stderr
chunks, and resolves the promise with the first URL matching
`https:` + `//[a-z0-9-]+.trycloudflare.com` found in the cumulative output
(the dots of the suffix are literal in the source pattern); a timer resolves
`null` and kills the subprocess if nothing matched in time, and the
process-level `error` event also resolves `null`.  The subprocess's
interleaved output and events are modelled as a finite list of events
arriving before the timeout would fire; the timeout fires afterwards if
still armed. -/

/-- Character class `[a-z0-9-]` of the tunnel-URL pattern. -/
def isTunnelChar (c : Char) : Bool :=
  c.isLower || c.isDigit || c = '-'

/-- The literal head of the tunnel-URL pattern. -/
def tunnelUrlHead : List Char := "https://".toList

/-- The literal tail `.trycloudflare.com` of the tunnel-URL pattern. -/
def tunnelUrlTail : List Char := ".trycloudflare.com".toList

/-- Try the tunnel-URL pattern anchored at the head of the list.  The class
`[a-z0-9-]` excludes `.`, so the greedy run is exactly `takeWhile` and no
backtracking is possible. -/
def matchTunnelAt (cs : List Char) : Option (List Char) :=
  if tunnelUrlHead.isPrefixOf cs then
    let rest := cs.drop 8
    let run := rest.takeWhile isTunnelChar
    if ¬ run = [] ∧ tunnelUrlTail.isPrefixOf (rest.dropWhile isTunnelChar) then
      some (tunnelUrlHead ++ run ++ tunnelUrlTail)
    else none
  else none

/-- `haystack.includes(needle)` on char lists: some position where the
needle starts. -/
def listHasSub (needle : List Char) : List Char → Bool
  | [] => needle.isPrefixOf []
  | c :: cs => needle.isPrefixOf (c :: cs) || listHasSub needle cs

/-- First match of the tunnel-URL pattern anywhere in the list (leftmost,
as `String.prototype.match` returns). -/
def findTunnelUrl : List Char → Option (List Char)
  | [] => none
  | c :: cs =>
    match matchTunnelAt (c :: cs) with
    | some u => some u
    | none => findTunnelUrl cs

/-- An observable emitted by the tunnel subprocess before the timeout:
an output chunk (stdout or stderr, both wired to the same handler), the
process-level `error` event, or an `exit` notification (which the source
only logs). -/
inductive TunnelEvent where
  | chunk (data : List Char)
  | procError
  | procExit (code : Int)
  deriving DecidableEq, Repr

/-- Resolve a promise: the first resolution wins, later ones are no-ops. -/
def resolveOnce {α : Type} (p : Option α) (v : α) : Option α :=
  match p with
  | none => some v
  | some r => some r

/-- State of one `createPublicTunnel` promise executor: the accumulated
`output`, the source's `resolved` flag, the promise value (`none` while
pending), whether the timer is still armed, whether the subprocess was
killed, and the `tunnels.set` registration made on a match. -/
structure TunnelRun where
  output : List Char
  resolvedFlag : Bool
  promise : Option (Option (List Char))
  timerArmed : Bool
  killedProcess : Bool
  registered : Option (List Char)
  deriving DecidableEq, Repr

/-- Executor state right after `spawn`. -/
def tunnelInit : TunnelRun :=
  { output := [], resolvedFlag := false, promise := none,
    timerArmed := true, killedProcess := false, registered := none }

/-- One event of the executor.  A chunk appends to `output` and, when a URL
matches and `resolved` is still false, clears the timer, registers the
tunnel and resolves the URL.  A process error clears the timer and resolves
`null` (without touching the `resolved` flag, as in the source).  An exit
notification is only logged. -/
def tunnelStep (s : TunnelRun) : TunnelEvent → TunnelRun
  | .chunk data =>
    let output := s.output ++ data
    match findTunnelUrl output, s.resolvedFlag with
    | some u, false =>
      { s with output := output, resolvedFlag := true, timerArmed := false,
               registered := some u, promise := resolveOnce s.promise (some u) }
    | _, _ => { s with output := output }
  | .procError =>
    { s with timerArmed := false, promise := resolveOnce s.promise none }
  | .procExit _ => s

/-- The timeout callback: if still armed and not resolved, kill the
subprocess and resolve `null`. -/
def tunnelTimeout (s : TunnelRun) : TunnelRun :=
  if s.timerArmed ∧ ¬ s.resolvedFlag then
    { s with killedProcess := true, promise := resolveOnce s.promise none }
  else s

/-- `createPublicTunnel(port, deployId)` as a whole: if `spawn` itself threw,
the outer catch returns `null`; otherwise fold the subprocess events and then
fire the timeout.  The result's `promise` field is what the awaiting caller
receives. -/
def createPublicTunnelRun (spawnOk : Bool) (events : List TunnelEvent) : TunnelRun :=
  if spawnOk then tunnelTimeout (events.foldl tunnelStep tunnelInit)
  else { tunnelInit with timerArmed := false, promise := some none }

/-- All output chunks of an event list, concatenated. -/
def allChunks : List TunnelEvent → List Char
  | [] => []
  | .chunk data :: es => data ++ allChunks es
  | _ :: es => allChunks es

/-- The value the `await`ing caller receives from a finished run. -/
def tunnelResolvedUrl (run : TunnelRun) : Option (List Char) :=
  (run.promise.getD none)

/-! ## Data model -/

/-- The deployment record the handlers build and store (records restored
from the database carry no `hostPort` and no `buildDir` field, hence the
options). -/
structure Deployment where
  id : String
  url : String
  localUrl : String
  container : String
  status : String
  typ : String
  source : String
  hasPublicUrl : Bool
  hostPort : Option Nat
  buildDir : Option String
  createdAt : String
  deriving DecidableEq, Repr

/-- A `tunnels` map entry: the public URL and the subprocess it owns
(`close` kills that subprocess). -/
structure Tunnel where
  url : String
  procId : Nat
  deriving DecidableEq, Repr

/-- A row of the persisted `deployments` table. -/
structure DBRow where
  id : String
  url : String
  localUrl : String
  container_id : String
  status : String
  typ : String
  source : String
  created_at : String
  deriving DecidableEq, Repr

/-- The process-wide mutable state plus the modelled external world: the
`deployments` and `tunnels` maps and `usedPorts`, the set of containers that
exist in the engine, the build directories on disk, the persisted table (and
whether a database connection exists at all), and the set of subprocess ids
that have been killed. -/
structure ServerState where
  deployments : List (String × Deployment)
  tunnels : List (String × Tunnel)
  usedPorts : Finset Nat
  liveContainers : Finset String
  buildDirs : Finset String
  dbRows : List DBRow
  hasDb : Bool
  killedProcs : List Nat
  deriving DecidableEq

/-- Outcome of a creation request: a 400, a 500 raised by a failing step,
the dedicated post-start-verification 500 carrying captured logs, or the
success payload `{deploymentId, url}`. -/
inductive DeployResult where
  | clientError (msg : String)
  | serverError (msg : String)
  | startFailure (logs : String)
  | ok (deploymentId : String) (url : String)
  deriving DecidableEq, Repr

/-! ## Background tunnel attachment (docker and git handlers)

The docker and git handlers call `createPublicTunnel(...).then(...)` without
awaiting it: the response is produced first and this detached task runs
afterwards.  On a match the provisioner registered a `tunnels` entry; the
`.then` continuation mutates the deployment record and mirrors the new URL
to the database only if the record still exists. -/

def applyTunnelBackground (st : ServerState) (deployId : String)
    (spawnOk : Bool) (events : List TunnelEvent) (procId : Nat) : ServerState :=
  let run := createPublicTunnelRun spawnOk events
  let st :=
    match run.registered with
    | some u => { st with tunnels := mapSet st.tunnels deployId ⟨String.mk u, procId⟩ }
    | none => st
  match tunnelResolvedUrl run with
  | none => st
  | some u =>
    match mapGet st.deployments deployId with
    | none => st
    | some dep =>
      let dep := { dep with url := String.mk u, hasPublicUrl := true }
      let rows :=
        if st.hasDb then
          st.dbRows.map (fun r => if r.id = deployId then { r with url := String.mk u } else r)
        else st.dbRows
      { st with deployments := mapSet st.deployments deployId dep, dbRows := rows }

/-! ## Creation handlers

Each handler is a function of the pre-request state, the request fields and
the outcomes of the external calls it makes (image pull/build, container
create/start, the post-start inspection, the database insert), returning the
HTTP response and the post-response state.  A failing external call throws
into the handler's catch block, which releases the allocated port (and, for
git, removes the build directory). -/

/-- `POST /api/deploy/docker`.  `running` is what `container.inspect()`
reports after the 3-second settle delay; `errorLogs` is the tail of the
container logs captured on a failed start; `removeOk` says whether the
forcible removal of a failed-start container succeeded — that removal sits
in its own try/catch whose failure is only logged, so a failing removal
leaks the container while the same 500 is returned. -/
def deployDocker (maxDeployments : Nat) (st : ServerState)
    (image appPort : String) (rand : Nat → Nat)
    (deployId containerId : String)
    (pullOk createOk startOk running removeOk dbInsertOk : Bool)
    (errorLogs now : String) : DeployResult × ServerState :=
  if ¬ validateDockerImage image then (.clientError "Invalid Docker image name", st)
  else if ¬ validatePort appPort then (.clientError "Invalid port number", st)
  else if checkDeploymentLimit maxDeployments st.deployments.length then
    (.serverError (deploymentLimitMessage maxDeployments), st)
  else
    match getRandomPort rand st.usedPorts with
    | none => (.serverError "Unable to find available port", st)
    | some (hostPort, used) =>
      let st := { st with usedPorts := used }
      if ¬ pullOk then
        (.serverError "image pull failed", { st with usedPorts := releasePort hostPort st.usedPorts })
      else if ¬ createOk then
        (.serverError "container create failed", { st with usedPorts := releasePort hostPort st.usedPorts })
      else
        let st := { st with liveContainers := insert containerId st.liveContainers }
        if ¬ startOk then
          (.serverError "container start failed", { st with usedPorts := releasePort hostPort st.usedPorts })
        else if ¬ running then
          -- post-start verification failed: release the port, capture logs,
          -- attempt the forcible removal (its failure is caught and only
          -- logged, leaking the container), answer 500; no record is created
          let st := { st with usedPorts := releasePort hostPort st.usedPorts,
                              liveContainers :=
                                if removeOk then st.liveContainers.erase containerId
                                else st.liveContainers }
          (.startFailure errorLogs, st)
        else
          let deployment : Deployment :=
            { id := deployId,
              url := s!"http://localhost:{hostPort}",
              localUrl := s!"http://localhost:{hostPort}",
              container := containerId,
              status := "running",
              typ := "docker",
              source := image,
              hasPublicUrl := false,
              hostPort := some hostPort,
              buildDir := none,
              createdAt := now }
          let st := { st with deployments := mapSet st.deployments deployId deployment }
          if st.hasDb ∧ ¬ dbInsertOk then
            -- the awaited INSERT threw after the record was stored: the outer
            -- catch releases the port and answers 500, the record remains
            (.serverError "database insert failed",
             { st with usedPorts := releasePort hostPort st.usedPorts })
          else
            let row : DBRow :=
              { id := deployId, url := deployment.url, localUrl := deployment.localUrl,
                container_id := containerId, status := deployment.status,
                typ := deployment.typ, source := deployment.source, created_at := now }
            let st := if st.hasDb then { st with dbRows := st.dbRows ++ [row] } else st
            (.ok deployId deployment.url, st)

/-- `POST /api/deploy/git`.  The tunnel is requested detached after the
record is stored (see `applyTunnelBackground`); the response carries the
local URL.  The scheduled build-directory cleanup runs later and is not part
of the response-time state. -/
def deployGit (maxDeployments : Nat) (st : ServerState)
    (repo appPort : String) (rand : Nat → Nat)
    (deployId containerId : String)
    (cloneOk buildOk createOk startOk : Bool)
    (now : String) : DeployResult × ServerState :=
  if ¬ validateGitRepo repo then (.clientError "Invalid Git repository URL", st)
  else if ¬ validatePort appPort then (.clientError "Invalid port number", st)
  else if checkDeploymentLimit maxDeployments st.deployments.length then
    (.serverError (deploymentLimitMessage maxDeployments), st)
  else
    match getRandomPort rand st.usedPorts with
    | none => (.serverError "Unable to find available port", st)
    | some (hostPort, used) =>
      let st := { st with usedPorts := used }
      let buildDir := s!"deployments/build-{deployId}"
      if ¬ cloneOk then
        (.serverError "git clone failed",
         { st with usedPorts := releasePort hostPort st.usedPorts })
      else
        let st := { st with buildDirs := insert buildDir st.buildDirs }
        if ¬ buildOk then
          (.serverError "image build failed",
           { st with usedPorts := releasePort hostPort st.usedPorts,
                     buildDirs := st.buildDirs.erase buildDir })
        else if ¬ createOk then
          (.serverError "container create failed",
           { st with usedPorts := releasePort hostPort st.usedPorts,
                     buildDirs := st.buildDirs.erase buildDir })
        else
          let st := { st with liveContainers := insert containerId st.liveContainers }
          if ¬ startOk then
            (.serverError "container start failed",
             { st with usedPorts := releasePort hostPort st.usedPorts,
                       buildDirs := st.buildDirs.erase buildDir })
          else
            let deployment : Deployment :=
              { id := deployId,
                url := s!"http://localhost:{hostPort}",
                localUrl := s!"http://localhost:{hostPort}",
                container := containerId,
                status := "running",
                typ := "git",
                source := repo,
                hasPublicUrl := false,
                hostPort := some hostPort,
                buildDir := some buildDir,
                createdAt := now }
            let st := { st with deployments := mapSet st.deployments deployId deployment }
            (.ok deployId deployment.url, st)

/-- `POST /api/deploy/dockerfile`.  Unlike the docker and git handlers, this
one `await`s `createPublicTunnel` before responding, so the response URL is
the tunnel outcome applied to the fallback `http://localhost:{port}`; the
record is not persisted to the database by this handler. -/
def deployDockerfile (maxDeployments : Nat) (st : ServerState)
    (fileUploaded : Bool) (rand : Nat → Nat)
    (deployId containerId : String)
    (buildOk createOk startOk : Bool)
    (spawnOk : Bool) (events : List TunnelEvent) (procId : Nat)
    (now : String) : DeployResult × ServerState :=
  if checkDeploymentLimit maxDeployments st.deployments.length then
    (.serverError (deploymentLimitMessage maxDeployments), st)
  else if ¬ fileUploaded then (.clientError "No Dockerfile uploaded", st)
  else
    match getRandomPort rand st.usedPorts with
    | none => (.serverError "Unable to find available port", st)
    | some (port, used) =>
      let st := { st with usedPorts := used }
      if ¬ buildOk then
        (.serverError "image build failed",
         { st with usedPorts := releasePort port st.usedPorts })
      else if ¬ createOk then
        (.serverError "container create failed",
         { st with usedPorts := releasePort port st.usedPorts })
      else
        let st := { st with liveContainers := insert containerId st.liveContainers }
        if ¬ startOk then
          (.serverError "container start failed",
           { st with usedPorts := releasePort port st.usedPorts })
        else
          let run := createPublicTunnelRun spawnOk events
          let st :=
            match run.registered with
            | some u => { st with tunnels := mapSet st.tunnels deployId ⟨String.mk u, procId⟩ }
            | none => st
          let tunnelUrl := tunnelResolvedUrl run
          let deployment : Deployment :=
            { id := deployId,
              url := match tunnelUrl with
                     | some u => String.mk u
                     | none => s!"http://localhost:{port}",
              localUrl := s!"http://localhost:{port}",
              container := containerId,
              status := "running",
              typ := "dockerfile",
              source := "uploaded",
              hasPublicUrl := tunnelUrl.isSome,
              hostPort := some port,
              buildDir := none,
              createdAt := now }
          let st := { st with deployments := mapSet st.deployments deployId deployment }
          (.ok deployId deployment.url, st)

/-- `POST /api/deploy/test`: pulls `nginx:alpine`, starts it, and — like the
dockerfile handler — `await`s the tunnel before responding. -/
def deployTest (maxDeployments : Nat) (st : ServerState)
    (rand : Nat → Nat) (deployId containerId : String)
    (pullOk createOk startOk : Bool)
    (spawnOk : Bool) (events : List TunnelEvent) (procId : Nat)
    (now : String) : DeployResult × ServerState :=
  if checkDeploymentLimit maxDeployments st.deployments.length then
    (.serverError (deploymentLimitMessage maxDeployments), st)
  else
    match getRandomPort rand st.usedPorts with
    | none => (.serverError "Unable to find available port", st)
    | some (hostPort, used) =>
      let st := { st with usedPorts := used }
      if ¬ pullOk then
        (.serverError "image pull failed",
         { st with usedPorts := releasePort hostPort st.usedPorts })
      else if ¬ createOk then
        (.serverError "container create failed",
         { st with usedPorts := releasePort hostPort st.usedPorts })
      else
        let st := { st with liveContainers := insert containerId st.liveContainers }
        if ¬ startOk then
          (.serverError "container start failed",
           { st with usedPorts := releasePort hostPort st.usedPorts })
        else
          let run := createPublicTunnelRun spawnOk events
          let st :=
            match run.registered with
            | some u => { st with tunnels := mapSet st.tunnels deployId ⟨String.mk u, procId⟩ }
            | none => st
          let tunnelUrl := tunnelResolvedUrl run
          let deployment : Deployment :=
            { id := deployId,
              url := match tunnelUrl with
                     | some u => String.mk u
                     | none => s!"http://localhost:{hostPort}",
              localUrl := s!"http://localhost:{hostPort}",
              container := containerId,
              status := "running",
              typ := "test",
              source := "nginx:alpine",
              hasPublicUrl := tunnelUrl.isSome,
              hostPort := some hostPort,
              buildDir := none,
              createdAt := now }
          let st := { st with deployments := mapSet st.deployments deployId deployment }
          (.ok deployId deployment.url, st)

/-! ## Deletion (`DELETE /api/deploy/:id`) -/

/-- Response of the deletion route: 404 for an unknown id, otherwise
`{success: true}` with the accumulated warnings (omitted when empty). -/
inductive DeleteResult where
  | notFound
  | success (warnings : List String)
  deriving DecidableEq, Repr

/-- The deletion path.  Each cleanup step sits in its own try/catch: a
failing `stop` is only logged; a failing `remove` pushes a container
warning; `tunnel.close()` kills the owned subprocess (the registration is
then dropped); the port is released; the build directory is removed if
present on disk; the record is deleted from memory; the database row is
deleted when a connection exists.  `removeOk`, `dirOk` and `dbOk` say
whether the container removal, directory removal and database deletion
succeeded. -/
def deleteDeployment (st : ServerState) (idReq : String)
    (stopOk removeOk dirOk dbOk : Bool) : DeleteResult × ServerState :=
  match mapGet st.deployments idReq with
  | none => (.notFound, st)
  | some deployment =>
    -- stop: errors only logged (stopOk is observationally irrelevant)
    let _ := stopOk
    -- container removal step, in its own try/catch
    let containerErrors : List String :=
      if removeOk then [] else ["Container cleanup failed"]
    let live :=
      if removeOk then st.liveContainers.erase deployment.container
      else st.liveContainers
    -- tunnel step: close (kill the owned subprocess) and drop the entry
    let tunnelHit := mapGet st.tunnels idReq
    let tunnels :=
      match tunnelHit with
      | some _ => mapDelete st.tunnels idReq
      | none => st.tunnels
    let killed : List Nat :=
      match tunnelHit with
      | some tunnel => [tunnel.procId]
      | none => []
    -- port release
    let used :=
      match deployment.hostPort with
      | some p => releasePort p st.usedPorts
      | none => st.usedPorts
    -- build directory step, attempted only if the directory exists on disk
    let dirErrors : List String :=
      match deployment.buildDir with
      | some d =>
        if d ∈ st.buildDirs then (if dirOk then [] else ["Build directory cleanup failed"])
        else []
      | none => []
    let dirs :=
      match deployment.buildDir with
      | some d => if d ∈ st.buildDirs ∧ dirOk = true then st.buildDirs.erase d else st.buildDirs
      | none => st.buildDirs
    -- removal from the in-memory map
    let dm := mapDelete st.deployments idReq
    -- database row deletion, when a connection exists
    let dbErrors : List String :=
      if st.hasDb then (if dbOk then [] else ["Database deletion failed"]) else []
    let rows :=
      if st.hasDb ∧ dbOk = true then st.dbRows.filter (fun r => ¬ r.id = idReq)
      else st.dbRows
    (.success (containerErrors ++ dirErrors ++ dbErrors),
     { st with deployments := dm, tunnels := tunnels, usedPorts := used,
               liveContainers := live, buildDirs := dirs, dbRows := rows,
               killedProcs := st.killedProcs ++ killed })

/-! ## Startup reconciliation (`loadDeploymentsFromDB`) -/

/-- The record rehydrated from a persisted row whose container still
exists: its status comes from the container's actual running state, not
from the persisted `status` column; no `hostPort` / `buildDir` fields. -/
def restoreDeployment (row : DBRow) (running : Bool) : Deployment :=
  { id := row.id,
    url := row.url,
    localUrl := row.localUrl,
    container := row.container_id,
    status := if running then "running" else "stopped",
    typ := row.typ,
    source := row.source,
    hasPublicUrl := decide (¬ row.url = "") &&
      ! listHasSub ("localhost".toList) row.url.toList,
    hostPort := none,
    buildDir := none,
    createdAt := row.created_at }

/-- `loadDeploymentsFromDB()`: for each persisted row in order, inspect its
container; if the container no longer exists (`runtime` gives `none`), the
row is deleted from the table (the awaited `DELETE`, whose success per row
is `dbDeleteOk row.id`) and not loaded; otherwise the rehydrated record is
stored.  The `DELETE` sits inside the per-row catch, so when it throws the
exception escapes to the function-level catch: the row stays in the table
and the remaining rows are processed no further (already-restored records
stay in the map).  Returns the in-memory map and the surviving table. -/
def loadDeploymentsFromDB (runtime : String → Option Bool)
    (dbDeleteOk : String → Bool) :
    List DBRow → List (String × Deployment) × List DBRow
  | [] => ([], [])
  | row :: rest =>
    match runtime row.container_id with
    | some running =>
      let r := loadDeploymentsFromDB runtime dbDeleteOk rest
      ((row.id, restoreDeployment row running) :: r.1, row :: r.2)
    | none =>
      if dbDeleteOk row.id then loadDeploymentsFromDB runtime dbDeleteOk rest
      else ([], row :: rest)

/-! ## Sample data used to instantiate the theorems -/

/-- Fresh server state: empty maps and sets, no database connection. -/
def emptyState : ServerState :=
  { deployments := [], tunnels := [], usedPorts := ∅, liveContainers := ∅,
    buildDirs := ∅, dbRows := [], hasDb := false, killedProcs := [] }

/-- A stored running deployment holding port 5000 and container `c1`. -/
def sampleDeployment : Deployment :=
  { id := "d1", url := "http://localhost:5000", localUrl := "http://localhost:5000",
    container := "c1", status := "running", typ := "docker", source := "nginx:alpine",
    hasPublicUrl := false, hostPort := some 5000, buildDir := none, createdAt := "t0" }

/-- A state holding `sampleDeployment` together with an open tunnel whose
subprocess id is 7. -/
def sampleState : ServerState :=
  { deployments := [("d1", sampleDeployment)],
    tunnels := [("d1", { url := "https://abc.trycloudflare.com", procId := 7 })],
    usedPorts := {5000}, liveContainers := {"c1"},
    buildDirs := ∅, dbRows := [], hasDb := false, killedProcs := [] }

/-- A persisted row naming container `c1`. -/
def sampleRow : DBRow :=
  { id := "d1", url := "http://localhost:5000", localUrl := "http://localhost:5000",
    container_id := "c1", status := "running", typ := "docker",
    source := "nginx:alpine", created_at := "t0" }

/-- A second persisted row, distinct id and container. -/
def sampleRow2 : DBRow :=
  { id := "d2", url := "https://abc.trycloudflare.com", localUrl := "http://localhost:5001",
    container_id := "c2", status := "running", typ := "docker",
    source := "nginx:alpine", created_at := "t1" }

/-! # Theorems -/

/-! ## Association-map lemmas -/

theorem mapGet_cons {α : Type} (k' : String) (v : α) (m : List (String × α)) (k : String) :
    mapGet ((k', v) :: m) k = if k' = k then some v else mapGet m k := by
  simp only [mapGet, List.find?]
  by_cases h : k' = k
  · simp [h]
  · simp [h]

theorem mapGet_mapDelete_self {α : Type} (m : List (String × α)) (k : String) :
    mapGet (mapDelete m k) k = none := by
  induction m with
  | nil => rfl
  | cons kv rest ih =>
    simp only [mapDelete, List.filter_cons] at ih ⊢
    by_cases h : kv.1 = k
    · simpa [h] using ih
    · obtain ⟨k', v⟩ := kv
      simp only at h
      simpa [h, mapGet_cons] using ih

theorem mapGet_mapSet_self {α : Type} (m : List (String × α)) (k : String) (v : α) :
    mapGet (mapSet m k v) k = some v := by
  simp [mapSet, mapGet_cons]

/-! ## Port allocator lemmas -/

theorem portCandidate_lb (rand : Nat → Nat) (attempt : Nat) :
    5000 ≤ portCandidate rand attempt := Nat.le_add_right 5000 _

theorem portCandidate_ub (rand : Nat → Nat) (attempt : Nat) :
    portCandidate rand attempt ≤ 9998 := by
  have h : rand attempt % 4999 < 4999 := Nat.mod_lt _ (by norm_num)
  unfold portCandidate
  omega

theorem getRandomPortGo_some_spec (rand : Nat → Nat) (used : Finset Nat) :
    ∀ fuel attempt p used', getRandomPortGo rand used attempt fuel = some (p, used') →
      p ∉ used ∧ used' = insert p used ∧ 5000 ≤ p ∧ p ≤ 9998 := by
  intro fuel
  induction fuel with
  | zero => intro a p u h; simp [getRandomPortGo] at h
  | succ n ih =>
    intro a p u h
    simp only [getRandomPortGo] at h
    by_cases hm : portCandidate rand a ∈ used
    · rw [if_pos hm] at h
      exact ih (a + 1) p u h
    · rw [if_neg hm] at h
      obtain ⟨hp, hu⟩ := Prod.mk.injEq .. ▸ Option.some.injEq .. ▸ h
      subst hp; subst hu
      exact ⟨hm, rfl, portCandidate_lb rand a, portCandidate_ub rand a⟩

theorem getRandomPort_some_spec (rand : Nat → Nat) (used : Finset Nat)
    (p : Nat) (used' : Finset Nat) (h : getRandomPort rand used = some (p, used')) :
    p ∉ used ∧ used' = insert p used ∧ 5000 ≤ p ∧ p ≤ 9998 :=
  getRandomPortGo_some_spec rand used 100 0 p used' h

theorem getRandomPortGo_none_iff (rand : Nat → Nat) (used : Finset Nat) :
    ∀ fuel attempt, getRandomPortGo rand used attempt fuel = none ↔
      ∀ i, i < fuel → portCandidate rand (attempt + i) ∈ used := by
  intro fuel
  induction fuel with
  | zero => intro a; simp [getRandomPortGo]
  | succ n ih =>
    intro a
    simp only [getRandomPortGo]
    by_cases hm : portCandidate rand a ∈ used
    · rw [if_pos hm, ih (a + 1)]
      constructor
      · intro h i hi
        cases i with
        | zero => simpa using hm
        | succ j =>
          have := h j (by omega)
          have harith : a + 1 + j = a + (j + 1) := by omega
          rwa [harith] at this
      · intro h i hi
        have := h (i + 1) (by omega)
        have harith : a + (i + 1) = a + 1 + i := by omega
        rwa [harith] at this
    · rw [if_neg hm]
      constructor
      · intro h; cases h
      · intro h
        exact absurd (by simpa using h 0 (by omega)) hm

/-- Claim C6: every call to the allocator returns a port not currently in
the used set, adds it to the set before returning, and consequently a
second allocation from the resulting set can never hand out the same port,
so no two concurrently-open deployments share a host port. -/
theorem c6_allocator_port_exclusive (rand : Nat → Nat) (used : Finset Nat)
    (p : Nat) (used' : Finset Nat) (h : getRandomPort rand used = some (p, used')) :
    p ∉ used ∧ used' = insert p used ∧
      ∀ (rand2 : Nat → Nat) (q : Nat) (used'' : Finset Nat),
        getRandomPort rand2 used' = some (q, used'') → q ≠ p := by
  obtain ⟨hmem, hins, _, _⟩ := getRandomPort_some_spec rand used p used' h
  refine ⟨hmem, hins, ?_⟩
  intro rand2 q used'' h2 hqp
  obtain ⟨hmem2, _, _, _⟩ := getRandomPort_some_spec rand2 used' q used'' h2
  exact hmem2 (hqp ▸ hins ▸ Finset.mem_insert_self p used)

theorem c6_allocator_port_exclusive_witness :
    getRandomPort (fun _ => 0) (∅ : Finset Nat) = some (5000, {5000}) ∧
      5000 ∉ (∅ : Finset Nat) ∧ ({5000} : Finset Nat) = insert 5000 ∅ ∧
      ∀ (rand2 : Nat → Nat) (q : Nat) (used'' : Finset Nat),
        getRandomPort rand2 {5000} = some (q, used'') → q ≠ 5000 :=
  ⟨by decide, c6_allocator_port_exclusive (fun _ => 0) ∅ 5000 {5000} (by decide)⟩

/-- Claim C7: releasing a port is idempotent — releasing twice equals
releasing once, and releasing a port not in the used set leaves the set
unchanged (and, being a total function, it never raises). -/
theorem c7_releasePort_idempotent (p : Nat) (s : Finset Nat) :
    releasePort p (releasePort p s) = releasePort p s ∧
      (p ∉ s → releasePort p s = s) := by
  constructor
  · unfold releasePort
    by_cases hp : p = 0
    · simp [hp]
    · simp [hp, Finset.erase_idem]
  · intro hmem
    unfold releasePort
    by_cases hp : p = 0
    · simp [hp]
    · simp [hp, Finset.erase_eq_of_not_mem hmem]

theorem c7_releasePort_idempotent_witness :
    releasePort 4242 (releasePort 4242 (∅ : Finset Nat)) = releasePort 4242 ∅ ∧
      releasePort 4242 (∅ : Finset Nat) = ∅ :=
  ⟨(c7_releasePort_idempotent 4242 ∅).1,
   (c7_releasePort_idempotent 4242 ∅).2 (by decide)⟩

/-- Claim C10: every allocated port lies in the fixed range
`5000 ≤ p ≤ 9998`, and the allocator gives up (throws) exactly when 100
successive probes all hit the used set, so allocation always terminates. -/
theorem c10_port_range_and_bounded_probing (rand : Nat → Nat) (used : Finset Nat) :
    (∀ p used', getRandomPort rand used = some (p, used') → 5000 ≤ p ∧ p ≤ 9998) ∧
      (getRandomPort rand used = none ↔ ∀ i, i < 100 → portCandidate rand i ∈ used) := by
  constructor
  · intro p used' h
    obtain ⟨_, _, h1, h2⟩ := getRandomPort_some_spec rand used p used' h
    exact ⟨h1, h2⟩
  · have := getRandomPortGo_none_iff rand used 100 0
    simpa [getRandomPort] using this

theorem c10_port_range_and_bounded_probing_witness :
    (5000 ≤ 5000 ∧ 5000 ≤ 9998) ∧
      getRandomPort (fun _ => 0) ({5000} : Finset Nat) = none :=
  ⟨(c10_port_range_and_bounded_probing (fun _ => 0) ∅).1 5000 {5000} (by decide),
   ((c10_port_range_and_bounded_probing (fun _ => 0) {5000}).2).mpr (by decide)⟩

/-! ## Failed post-start verification (image deployments) -/

/-- Claim C1, counterexample: on an image deployment whose post-start
inspection reports the container not running, the handler answers the
start-failure error but stores no deployment record at all — so there is no
"resulting Deployment" with status `failed` (the claim's status assertion is
false; cleanup itself does happen, see the amended theorem). -/
theorem c1_failed_start_no_failed_record :
    (deployDocker 50 emptyState "nginx:alpine" "80" (fun _ => 0) "d1" "c1"
        true true true false true true "logs" "t0").1 = .startFailure "logs" ∧
    mapGet (deployDocker 50 emptyState "nginx:alpine" "80" (fun _ => 0) "d1" "c1"
        true true true false true true "logs" "t0").2.deployments "d1" = none := by
  decide

/-- Claim C1 as amended: for every image-based creation request in which
post-start verification reports the container not running, the request
fails with the start-failure error, no deployment record is created (the
deployment map is unchanged, so in particular no record is bound to the
container), and the previously allocated host port is returned to the free
set, the allocator's used set (hence its size) returning to its pre-request
value; the container's forcible removal is attempted — when the engine
honors it no container handle remains bound to a live container, but a
removal failure is caught and only logged, so the container then leaks
while the same error is returned. -/
theorem c1_failed_start_cleanup (maxDeployments : Nat) (st : ServerState)
    (image appPort : String) (rand : Nat → Nat) (deployId containerId : String)
    (removeOk dbInsertOk : Bool) (errorLogs now : String)
    (h1 : validateDockerImage image = true) (h2 : validatePort appPort = true)
    (hlim : checkDeploymentLimit maxDeployments st.deployments.length = false)
    (p : Nat) (used' : Finset Nat)
    (halloc : getRandomPort rand st.usedPorts = some (p, used'))
    (hc : containerId ∉ st.liveContainers) :
    (deployDocker maxDeployments st image appPort rand deployId containerId
        true true true false removeOk dbInsertOk errorLogs now).1 =
      .startFailure errorLogs ∧
    (deployDocker maxDeployments st image appPort rand deployId containerId
        true true true false removeOk dbInsertOk errorLogs now).2.deployments =
      st.deployments ∧
    (deployDocker maxDeployments st image appPort rand deployId containerId
        true true true false removeOk dbInsertOk errorLogs now).2.usedPorts =
      st.usedPorts ∧
    (deployDocker maxDeployments st image appPort rand deployId containerId
        true true true false removeOk dbInsertOk errorLogs now).2.usedPorts.card =
      st.usedPorts.card ∧
    (removeOk = true →
      (deployDocker maxDeployments st image appPort rand deployId containerId
        true true true false removeOk dbInsertOk errorLogs now).2.liveContainers =
      st.liveContainers) ∧
    (removeOk = false →
      containerId ∈
        (deployDocker maxDeployments st image appPort rand deployId containerId
          true true true false removeOk dbInsertOk errorLogs now).2.liveContainers) := by
  obtain ⟨hmem, hins, hlb, _⟩ := getRandomPort_some_spec rand st.usedPorts p used' halloc
  have hp0 : ¬ p = 0 := by omega
  have hused : releasePort p used' = st.usedPorts := by
    rw [hins, releasePort, if_neg hp0, Finset.erase_insert hmem]
  have hlive : (insert containerId st.liveContainers).erase containerId =
      st.liveContainers := Finset.erase_insert hc
  cases removeOk with
  | true =>
    refine ⟨?_, ?_, ?_, ?_, fun _ => ?_, fun h => Bool.noConfusion h⟩ <;>
      simp [deployDocker, h1, h2, hlim, halloc, hused, hlive]
  | false =>
    refine ⟨?_, ?_, ?_, ?_, fun h => Bool.noConfusion h, fun _ => ?_⟩ <;>
      simp [deployDocker, h1, h2, hlim, halloc, hused, Finset.mem_insert_self]

theorem c1_failed_start_cleanup_witness :
    (deployDocker 50 emptyState "nginx:alpine" "80" (fun _ => 0) "d9" "c9"
        true true true false true true "tail" "t0").1 = .startFailure "tail" ∧
    (deployDocker 50 emptyState "nginx:alpine" "80" (fun _ => 0) "d9" "c9"
        true true true false true true "tail" "t0").2.deployments =
      emptyState.deployments ∧
    (deployDocker 50 emptyState "nginx:alpine" "80" (fun _ => 0) "d9" "c9"
        true true true false true true "tail" "t0").2.usedPorts =
      emptyState.usedPorts ∧
    (deployDocker 50 emptyState "nginx:alpine" "80" (fun _ => 0) "d9" "c9"
        true true true false true true "tail" "t0").2.liveContainers =
      emptyState.liveContainers :=
  have h := c1_failed_start_cleanup 50 emptyState "nginx:alpine" "80" (fun _ => 0)
    "d9" "c9" true true "tail" "t0" (by decide) (by decide) (by decide) 5000 {5000}
    (by decide) (by decide)
  ⟨h.1, h.2.1, h.2.2.1, h.2.2.2.2.1 rfl⟩

/-! ## Admission control -/

/-- Claim C3: when the store already holds the configured maximum number of
deployments, every creation request — on any of the four routes, once its
input validation is passed — is answered with the admission error and the
whole state (in particular the allocator's used set and the deployment map)
is returned untouched: the limit check precedes port allocation. -/
theorem c3_admission_rejected_without_side_effects
    (maxDeployments : Nat) (st : ServerState)
    (hcount : st.deployments.length = maxDeployments)
    (image appPort repo : String) (rand : Nat → Nat)
    (deployId containerId : String)
    (pullOk createOk startOk running removeOk dbInsertOk cloneOk buildOk fileUploaded spawnOk : Bool)
    (events : List TunnelEvent) (procId : Nat) (errorLogs now : String) :
    (validateDockerImage image = true → validatePort appPort = true →
      deployDocker maxDeployments st image appPort rand deployId containerId
          pullOk createOk startOk running removeOk dbInsertOk errorLogs now =
        (.serverError (deploymentLimitMessage maxDeployments), st)) ∧
    (validateGitRepo repo = true → validatePort appPort = true →
      deployGit maxDeployments st repo appPort rand deployId containerId
          cloneOk buildOk createOk startOk now =
        (.serverError (deploymentLimitMessage maxDeployments), st)) ∧
    (deployDockerfile maxDeployments st fileUploaded rand deployId containerId
          buildOk createOk startOk spawnOk events procId now =
        (.serverError (deploymentLimitMessage maxDeployments), st)) ∧
    (deployTest maxDeployments st rand deployId containerId
          pullOk createOk startOk spawnOk events procId now =
        (.serverError (deploymentLimitMessage maxDeployments), st)) := by
  have hlim : checkDeploymentLimit maxDeployments st.deployments.length = true := by
    simp [checkDeploymentLimit, hcount]
  refine ⟨?_, ?_, ?_, ?_⟩
  · intro h1 h2
    simp [deployDocker, h1, h2, hlim]
  · intro h1 h2
    simp [deployGit, h1, h2, hlim]
  · simp [deployDockerfile, hlim]
  · simp [deployTest, hlim]

theorem c3_admission_rejected_without_side_effects_witness :
    deployDocker 0 emptyState "nginx:alpine" "80" (fun _ => 0) "d1" "c1"
        true true true true true true "logs" "t0" =
      (.serverError (deploymentLimitMessage 0), emptyState) ∧
    deployTest 0 emptyState (fun _ => 0) "d1" "c1" true true true true [] 7 "t0" =
      (.serverError (deploymentLimitMessage 0), emptyState) :=
  ⟨(c3_admission_rejected_without_side_effects 0 emptyState (by decide)
      "nginx:alpine" "80" "https://github.com/u/r.git" (fun _ => 0) "d1" "c1"
      true true true true true true true true true true [] 7 "logs" "t0").1
      (by decide) (by decide),
   (c3_admission_rejected_without_side_effects 0 emptyState (by decide)
      "nginx:alpine" "80" "https://github.com/u/r.git" (fun _ => 0) "d1" "c1"
      true true true true true true true true true true [] 7 "logs" "t0").2.2.2⟩

/-! ## Deletion path -/

/-- Claim C2: deleting an existing deployment attempts every cleanup step
regardless of earlier failures — the open tunnel's subprocess is killed and
its registration dropped for every value of the container-removal outcome
(in particular when removal raises), the record always leaves the in-memory
map, the host port is always released, the database row is deleted when the
connection and the delete succeed — and the individual sub-step failures
are accumulated and returned as warnings on a response that still reports
overall success. -/
theorem c2_deletion_cleanup_independent (st : ServerState) (idReq : String)
    (stopOk removeOk dirOk dbOk : Bool)
    (deployment : Deployment) (tunnel : Tunnel)
    (hdep : mapGet st.deployments idReq = some deployment)
    (htun : mapGet st.tunnels idReq = some tunnel) :
    tunnel.procId ∈ (deleteDeployment st idReq stopOk removeOk dirOk dbOk).2.killedProcs ∧
    mapGet (deleteDeployment st idReq stopOk removeOk dirOk dbOk).2.tunnels idReq = none ∧
    mapGet (deleteDeployment st idReq stopOk removeOk dirOk dbOk).2.deployments idReq = none ∧
    (∀ p, deployment.hostPort = some p →
      (deleteDeployment st idReq stopOk removeOk dirOk dbOk).2.usedPorts =
        releasePort p st.usedPorts) ∧
    (st.hasDb = true → dbOk = true →
      ∀ row ∈ (deleteDeployment st idReq stopOk removeOk dirOk dbOk).2.dbRows,
        ¬ row.id = idReq) ∧
    (∃ ws, (deleteDeployment st idReq stopOk removeOk dirOk dbOk).1 = .success ws ∧
      (removeOk = false → "Container cleanup failed" ∈ ws) ∧
      (st.hasDb = true → dbOk = false → "Database deletion failed" ∈ ws) ∧
      (∀ d, deployment.buildDir = some d → d ∈ st.buildDirs → dirOk = false →
        "Build directory cleanup failed" ∈ ws)) := by
  refine ⟨?_, ?_, ?_, ?_, ?_, ?_⟩
  · simp [deleteDeployment, hdep, htun]
  · simp [deleteDeployment, hdep, htun, mapGet_mapDelete_self]
  · simp [deleteDeployment, hdep, htun, mapGet_mapDelete_self]
  · intro p hp
    simp [deleteDeployment, hdep, htun, hp]
  · intro hdb hdbok row hrow
    simp only [deleteDeployment, hdep, htun, hdb, hdbok] at hrow
    simp only [and_true, if_true, List.mem_filter] at hrow
    simpa using hrow.2
  · refine ⟨(if removeOk then [] else ["Container cleanup failed"]) ++
      (match deployment.buildDir with
       | some d =>
         if d ∈ st.buildDirs then (if dirOk then [] else ["Build directory cleanup failed"])
         else []
       | none => []) ++
      (if st.hasDb then (if dbOk then [] else ["Database deletion failed"]) else []),
      ?_, ?_, ?_, ?_⟩
    · simp [deleteDeployment, hdep, htun]
    · intro h
      simp [h]
    · intro hdb hdbok
      simp [hdb, hdbok]
    · intro d hd hmem hdir
      simp [hd, hmem, hdir]

theorem c2_deletion_cleanup_independent_witness :
    7 ∈ (deleteDeployment sampleState "d1" true false true true).2.killedProcs ∧
    mapGet (deleteDeployment sampleState "d1" true false true true).2.tunnels "d1" = none ∧
    mapGet (deleteDeployment sampleState "d1" true false true true).2.deployments "d1" = none ∧
    (deleteDeployment sampleState "d1" true false true true).2.usedPorts =
      releasePort 5000 sampleState.usedPorts :=
  have h := c2_deletion_cleanup_independent sampleState "d1" true false true true
    sampleDeployment ⟨"https://abc.trycloudflare.com", 7⟩ (by decide) (by decide)
  ⟨h.1, h.2.1, h.2.2.1, h.2.2.2.1 5000 (by decide)⟩

/-! ## Startup reconciliation -/

theorem loadDB_mem_map (runtime : String → Option Bool) (dbDeleteOk : String → Bool) :
    ∀ (rows : List DBRow) (id : String) (d : Deployment),
      mapGet (loadDeploymentsFromDB runtime dbDeleteOk rows).1 id = some d →
      id ∈ rows.map DBRow.id := by
  intro rows
  induction rows with
  | nil => intro id d h; simp [loadDeploymentsFromDB, mapGet] at h
  | cons row rest ih =>
    intro id d h
    simp only [loadDeploymentsFromDB] at h
    cases hrt : runtime row.container_id with
    | none =>
      rw [hrt] at h
      cases hdok : dbDeleteOk row.id with
      | true =>
        rw [if_pos hdok] at h
        simp only [List.map_cons, List.mem_cons]
        exact Or.inr (ih id d h)
      | false =>
        rw [if_neg (by simp [hdok])] at h
        simp [mapGet] at h
    | some running =>
      rw [hrt] at h
      rw [mapGet_cons] at h
      by_cases hid : row.id = id
      · simp [← hid]
      · rw [if_neg hid] at h
        simp only [List.map_cons, List.mem_cons]
        exact Or.inr (ih id d h)

theorem loadDB_table_mem (runtime : String → Option Bool) (dbDeleteOk : String → Bool) :
    ∀ (rows : List DBRow) (r : DBRow),
      r ∈ (loadDeploymentsFromDB runtime dbDeleteOk rows).2 → r ∈ rows := by
  intro rows
  induction rows with
  | nil => intro r h; simp [loadDeploymentsFromDB] at h
  | cons row rest ih =>
    intro r h
    simp only [loadDeploymentsFromDB] at h
    cases hrt : runtime row.container_id with
    | none =>
      rw [hrt] at h
      cases hdok : dbDeleteOk row.id with
      | true =>
        rw [if_pos hdok] at h
        exact List.mem_cons_of_mem row (ih r h)
      | false =>
        rw [if_neg (by simp [hdok])] at h
        exact h
    | some running =>
      rw [hrt] at h
      rcases List.mem_cons.mp h with h1 | h2
      · exact h1 ▸ List.mem_cons_self row rest
      · exact List.mem_cons_of_mem row (ih r h2)

/-- A dead row whose awaited `DELETE` throws stays in the table: the
exception escapes the per-row catch, so reconciliation stops there with the
failing row and the remaining rows untouched (nothing later is rehydrated
or purged). -/
theorem loadDB_delete_failure_keeps_row (runtime : String → Option Bool)
    (dbDeleteOk : String → Bool) (row : DBRow) (rest : List DBRow)
    (hrt : runtime row.container_id = none) (hdok : dbDeleteOk row.id = false) :
    loadDeploymentsFromDB runtime dbDeleteOk (row :: rest) = ([], row :: rest) := by
  simp [loadDeploymentsFromDB, hrt, hdok]

/-- Claim C9: after startup reconciliation over persisted rows with
pairwise-distinct ids, and provided every attempted `DELETE` of a dead row
succeeds (`hdel` — a throwing `DELETE` escapes to the function-level catch
and aborts the loop, see `loadDB_delete_failure_keeps_row`), a row whose
container no longer exists in the runtime is absent from both the in-memory
store and the surviving persisted table, while a row whose container exists
is rehydrated exactly as `restoreDeployment`, whose status is derived from
the container's actual running state (`running`/`stopped`), not from the
persisted status column. -/
theorem c9_reconciliation_purges_and_rehydrates
    (runtime : String → Option Bool) (dbDeleteOk : String → Bool)
    (rows : List DBRow)
    (hnodup : (rows.map DBRow.id).Nodup) (row : DBRow) (hrow : row ∈ rows)
    (hdel : ∀ r ∈ rows, runtime r.container_id = none → dbDeleteOk r.id = true) :
    (runtime row.container_id = none →
      mapGet (loadDeploymentsFromDB runtime dbDeleteOk rows).1 row.id = none ∧
      ∀ r ∈ (loadDeploymentsFromDB runtime dbDeleteOk rows).2, ¬ r.id = row.id) ∧
    (∀ running, runtime row.container_id = some running →
      mapGet (loadDeploymentsFromDB runtime dbDeleteOk rows).1 row.id =
        some (restoreDeployment row running) ∧
      (restoreDeployment row running).status =
        (if running then "running" else "stopped")) := by
  induction rows with
  | nil => cases hrow
  | cons row0 rest ih =>
    rw [List.map_cons, List.nodup_cons] at hnodup
    obtain ⟨hnotin, hnodup'⟩ := hnodup
    have hdel' : ∀ r ∈ rest, runtime r.container_id = none → dbDeleteOk r.id = true :=
      fun r hr => hdel r (List.mem_cons_of_mem row0 hr)
    rcases List.mem_cons.mp hrow with heq | hmem
    · subst heq
      constructor
      · intro hrt
        have hdok : dbDeleteOk row.id = true :=
          hdel row (List.mem_cons_self row rest) hrt
        simp only [loadDeploymentsFromDB, hrt, hdok, if_true]
        constructor
        · cases hget : mapGet (loadDeploymentsFromDB runtime dbDeleteOk rest).1 row.id with
          | none => rfl
          | some d =>
            exact absurd (loadDB_mem_map runtime dbDeleteOk rest row.id d hget) hnotin
        · intro r hr hid
          exact hnotin
            (hid ▸ List.mem_map_of_mem DBRow.id (loadDB_table_mem runtime dbDeleteOk rest r hr))
      · intro running hrt
        simp only [loadDeploymentsFromDB, hrt]
        rw [mapGet_cons, if_pos rfl]
        exact ⟨rfl, rfl⟩
    · have hidne : ¬ row0.id = row.id := by
        intro h
        exact hnotin (h ▸ List.mem_map_of_mem DBRow.id hmem)
      have ihm := ih hnodup' hmem hdel'
      constructor
      · intro hrt
        simp only [loadDeploymentsFromDB]
        cases hrt0 : runtime row0.container_id with
        | none =>
          rw [if_pos (hdel row0 (List.mem_cons_self row0 rest) hrt0)]
          exact ihm.1 hrt
        | some running0 =>
          constructor
          · rw [mapGet_cons, if_neg hidne]
            exact (ihm.1 hrt).1
          · intro r hr
            rcases List.mem_cons.mp hr with h1 | h2
            · exact h1 ▸ hidne
            · exact (ihm.1 hrt).2 r h2
      · intro running hrt
        simp only [loadDeploymentsFromDB]
        cases hrt0 : runtime row0.container_id with
        | none =>
          rw [if_pos (hdel row0 (List.mem_cons_self row0 rest) hrt0)]
          exact ihm.2 running hrt
        | some running0 =>
          rw [mapGet_cons, if_neg hidne]
          exact ihm.2 running hrt

theorem c9_reconciliation_purges_and_rehydrates_witness :
    (mapGet (loadDeploymentsFromDB
        (fun c => if c = "c2" then some true else none) (fun _ => true)
        [sampleRow, sampleRow2]).1 "d1" = none ∧
      ∀ r ∈ (loadDeploymentsFromDB
        (fun c => if c = "c2" then some true else none) (fun _ => true)
        [sampleRow, sampleRow2]).2,
        ¬ r.id = "d1") ∧
    (mapGet (loadDeploymentsFromDB
        (fun c => if c = "c2" then some true else none) (fun _ => true)
        [sampleRow, sampleRow2]).1 "d2" = some (restoreDeployment sampleRow2 true) ∧
      (restoreDeployment sampleRow2 true).status = "running") :=
  have h1 := (c9_reconciliation_purges_and_rehydrates
    (fun c => if c = "c2" then some true else none) (fun _ => true)
    [sampleRow, sampleRow2]
    (by decide) sampleRow (by decide) (by decide)).1 (by decide)
  have h2 := (c9_reconciliation_purges_and_rehydrates
    (fun c => if c = "c2" then some true else none) (fun _ => true)
    [sampleRow, sampleRow2]
    (by decide) sampleRow2 (by decide) (by decide)).2 true (by decide)
  ⟨h1, h2.1, h2.2⟩

/-- Claim C8, counterexample: startup reconciliation itself produces a
deployment record with status `stopped` (for a persisted row whose
container exists but is not running) — so `stopped` is not reachable only
through explicit deletion. -/
theorem c8_reconciliation_produces_stopped :
    mapGet (loadDeploymentsFromDB (fun _ => some false) (fun _ => true)
        [sampleRow]).1 "d1" =
      some (restoreDeployment sampleRow false) ∧
    (restoreDeployment sampleRow false).status = "stopped" := by
  decide

/-- Claim C8 as amended: a record with status `stopped` arises only from
startup reconciliation of a persisted row whose container exists but is not
running; explicit deletion never sets a `stopped` status — it removes the
record from the store outright (which remains the unique transition out of
`running` or `failed` during normal operation). -/
theorem c8_stopped_only_from_reconciliation :
    (∀ (runtime : String → Option Bool) (dbDeleteOk : String → Bool)
        (rows : List DBRow) (id : String) (d : Deployment),
      mapGet (loadDeploymentsFromDB runtime dbDeleteOk rows).1 id = some d →
      d.status = "stopped" →
      ∃ row ∈ rows, row.id = id ∧ runtime row.container_id = some false) ∧
    (∀ (st : ServerState) (idReq : String) (stopOk removeOk dirOk dbOk : Bool)
        (deployment : Deployment),
      mapGet st.deployments idReq = some deployment →
      mapGet (deleteDeployment st idReq stopOk removeOk dirOk dbOk).2.deployments idReq
        = none) := by
  constructor
  · intro runtime dbDeleteOk rows
    induction rows with
    | nil => intro id d h; simp [loadDeploymentsFromDB, mapGet] at h
    | cons row rest ih =>
      intro id d h hstop
      simp only [loadDeploymentsFromDB] at h
      cases hrt : runtime row.container_id with
      | none =>
        rw [hrt] at h
        cases hdok : dbDeleteOk row.id with
        | true =>
          rw [if_pos hdok] at h
          obtain ⟨r, hr, hrest⟩ := ih id d h hstop
          exact ⟨r, List.mem_cons_of_mem row hr, hrest⟩
        | false =>
          rw [if_neg (by simp [hdok])] at h
          simp [mapGet] at h
      | some running =>
        rw [hrt] at h
        rw [mapGet_cons] at h
        by_cases hid : row.id = id
        · rw [if_pos hid] at h
          have hd : d = restoreDeployment row running := by
            exact (Option.some.injEq .. ▸ h).symm
          cases running with
          | true =>
            rw [hd] at hstop
            simp [restoreDeployment] at hstop
          | false => exact ⟨row, List.mem_cons_self row rest, hid, hrt⟩
        · rw [if_neg hid] at h
          obtain ⟨r, hr, hrest⟩ := ih id d h hstop
          exact ⟨r, List.mem_cons_of_mem row hr, hrest⟩
  · intro st idReq stopOk removeOk dirOk dbOk deployment hdep
    simp [deleteDeployment, hdep, mapGet_mapDelete_self]

theorem c8_stopped_only_from_reconciliation_witness :
    (∃ row ∈ [sampleRow], row.id = "d1" ∧
      (fun (_ : String) => some false) row.container_id = some false) ∧
    mapGet (deleteDeployment sampleState "d1" true true true true).2.deployments "d1"
      = none :=
  ⟨c8_stopped_only_from_reconciliation.1 (fun _ => some false) (fun _ => true)
      [sampleRow] "d1" (restoreDeployment sampleRow false) (by decide) (by decide),
   c8_stopped_only_from_reconciliation.2 sampleState "d1" true true true true
      sampleDeployment (by decide)⟩

/-! ## Tunnel provisioner lemmas -/

theorem isPrefixOf_mono (l xs ys : List Char) (h : l.isPrefixOf xs = true) :
    l.isPrefixOf (xs ++ ys) = true := by
  have h1 := List.isPrefixOf_iff_prefix.mp h
  exact List.isPrefixOf_iff_prefix.mpr (h1.trans (List.prefix_append xs ys))

theorem length_le_of_isPrefixOf (l xs : List Char) (h : l.isPrefixOf xs = true) :
    l.length ≤ xs.length := by
  have h1 := List.isPrefixOf_iff_prefix.mp h
  exact h1.length_le

theorem takeWhile_append_left (p : Char → Bool) :
    ∀ (xs ys : List Char), ¬ xs.dropWhile p = [] →
      (xs ++ ys).takeWhile p = xs.takeWhile p := by
  intro xs
  induction xs with
  | nil => intro ys h; simp at h
  | cons x xs' ih =>
    intro ys h
    by_cases hp : p x
    · simp only [List.dropWhile_cons, hp, if_true] at h
      simp only [List.cons_append, List.takeWhile_cons, hp, if_true]
      rw [ih ys h]
    · simp [List.takeWhile_cons, hp]

theorem dropWhile_append_left (p : Char → Bool) :
    ∀ (xs ys : List Char), ¬ xs.dropWhile p = [] →
      (xs ++ ys).dropWhile p = xs.dropWhile p ++ ys := by
  intro xs
  induction xs with
  | nil => intro ys h; simp at h
  | cons x xs' ih =>
    intro ys h
    by_cases hp : p x
    · simp only [List.dropWhile_cons, hp, if_true] at h
      simp only [List.cons_append, List.dropWhile_cons, hp, if_true]
      exact ih ys h
    · simp [List.dropWhile_cons, hp]

theorem matchTunnelAt_append (xs ys u : List Char)
    (h : matchTunnelAt xs = some u) : matchTunnelAt (xs ++ ys) = some u := by
  unfold matchTunnelAt at h
  by_cases hpre : tunnelUrlHead.isPrefixOf xs = true
  · rw [if_pos hpre] at h
    by_cases hc : ¬ (xs.drop 8).takeWhile isTunnelChar = [] ∧
        tunnelUrlTail.isPrefixOf ((xs.drop 8).dropWhile isTunnelChar) = true
    · rw [if_pos hc] at h
      have hlen : 8 ≤ xs.length := by
        have := length_le_of_isPrefixOf tunnelUrlHead xs hpre
        simpa [tunnelUrlHead] using this
      have hdrop : (xs ++ ys).drop 8 = xs.drop 8 ++ ys :=
        List.drop_append_of_le_length hlen
      have hdw : ¬ (xs.drop 8).dropWhile isTunnelChar = [] := by
        intro heq
        rw [heq] at hc
        exact absurd hc.2 (by decide)
      unfold matchTunnelAt
      rw [if_pos (isPrefixOf_mono tunnelUrlHead xs ys hpre)]
      show (if ¬ ((xs ++ ys).drop 8).takeWhile isTunnelChar = [] ∧
          tunnelUrlTail.isPrefixOf (((xs ++ ys).drop 8).dropWhile isTunnelChar) = true then
          some (tunnelUrlHead ++ ((xs ++ ys).drop 8).takeWhile isTunnelChar ++ tunnelUrlTail)
        else none) = some u
      rw [hdrop, takeWhile_append_left isTunnelChar (xs.drop 8) ys hdw,
        dropWhile_append_left isTunnelChar (xs.drop 8) ys hdw,
        if_pos ⟨hc.1, isPrefixOf_mono tunnelUrlTail _ ys hc.2⟩]
      exact h
    · rw [if_neg hc] at h
      cases h
  · rw [if_neg hpre] at h
    cases h

theorem findTunnelUrl_none_of_append (xs ys : List Char)
    (h : findTunnelUrl (xs ++ ys) = none) : findTunnelUrl xs = none := by
  induction xs with
  | nil => rfl
  | cons c cs ih =>
    rw [List.cons_append] at h
    simp only [findTunnelUrl] at h ⊢
    cases hm : matchTunnelAt (c :: cs) with
    | some u =>
      have := matchTunnelAt_append (c :: cs) ys u hm
      rw [List.cons_append] at this
      rw [this] at h
      cases h
    | none =>
      cases hm2 : matchTunnelAt (c :: (cs ++ ys)) with
      | some u => rw [hm2] at h; cases h
      | none =>
        rw [hm2] at h
        exact ih h

theorem resolveOnce_ne_none {α : Type} (p : Option α) (v : α) :
    ¬ resolveOnce p v = none := by
  cases p <;> simp [resolveOnce]

theorem tunnelStep_promise_keeps (s : TunnelRun) (e : TunnelEvent)
    (v : Option (List Char)) (h : s.promise = some v) :
    (tunnelStep s e).promise = some v := by
  cases e with
  | chunk data =>
    simp only [tunnelStep]
    split
    · simp [resolveOnce, h]
    · exact h
  | procError => simp [tunnelStep, resolveOnce, h]
  | procExit code => simpa [tunnelStep] using h

theorem foldl_tunnelStep_promise_keeps (events : List TunnelEvent) :
    ∀ (s : TunnelRun) (v : Option (List Char)), s.promise = some v →
      (events.foldl tunnelStep s).promise = some v := by
  induction events with
  | nil => intro s v h; simpa using h
  | cons e es ih =>
    intro s v h
    exact ih (tunnelStep s e) v (tunnelStep_promise_keeps s e v h)

theorem tunnelTimeout_promise_keeps (s : TunnelRun) (v : Option (List Char))
    (h : s.promise = some v) : (tunnelTimeout s).promise = some v := by
  unfold tunnelTimeout
  split
  · simp [resolveOnce, h]
  · exact h

theorem tunnelStep_pending_invariant (s : TunnelRun) (e : TunnelEvent)
    (h : s.promise = none → s.timerArmed = true ∧ s.resolvedFlag = false) :
    (tunnelStep s e).promise = none →
      (tunnelStep s e).timerArmed = true ∧ (tunnelStep s e).resolvedFlag = false := by
  cases e with
  | chunk data =>
    simp only [tunnelStep]
    split
    · intro habs
      exact absurd habs (resolveOnce_ne_none s.promise _)
    · exact h
  | procError =>
    intro habs
    exact absurd habs (resolveOnce_ne_none s.promise _)
  | procExit code => exact h

theorem foldl_tunnelStep_pending_invariant (events : List TunnelEvent) :
    ∀ (s : TunnelRun),
      (s.promise = none → s.timerArmed = true ∧ s.resolvedFlag = false) →
      ((events.foldl tunnelStep s).promise = none →
        (events.foldl tunnelStep s).timerArmed = true ∧
        (events.foldl tunnelStep s).resolvedFlag = false) := by
  induction events with
  | nil => intro s h; simpa using h
  | cons e es ih =>
    intro s h
    exact ih (tunnelStep s e) (tunnelStep_pending_invariant s e h)

theorem foldl_tunnelStep_inert (events : List TunnelEvent) :
    ∀ (s : TunnelRun),
      findTunnelUrl (s.output ++ allChunks events) = none →
      s.resolvedFlag = false → s.promise = none → s.timerArmed = true →
      s.killedProcess = false → s.registered = none →
      TunnelEvent.procError ∉ events →
      events.foldl tunnelStep s = { s with output := s.output ++ allChunks events } := by
  induction events with
  | nil =>
    intro s _ _ _ _ _ _ _
    simp [allChunks]
  | cons e es ih =>
    intro s hurl hres hprom harm hkill hreg hnoerr
    cases e with
    | chunk data =>
      have hassoc : s.output ++ allChunks (TunnelEvent.chunk data :: es) =
          (s.output ++ data) ++ allChunks es := by
        simp [allChunks, List.append_assoc]
      rw [hassoc] at hurl
      have hnm : findTunnelUrl (s.output ++ data) = none :=
        findTunnelUrl_none_of_append (s.output ++ data) (allChunks es) hurl
      have hstep : tunnelStep s (.chunk data) = { s with output := s.output ++ data } := by
        simp only [tunnelStep, hnm, hres]
      rw [List.foldl_cons, hstep]
      have := ih { s with output := s.output ++ data }
        (by simpa using hurl) hres hprom harm hkill hreg
        (fun hmem => hnoerr (List.mem_cons_of_mem _ hmem))
      rw [this, hassoc]
    | procError =>
      exact absurd (List.mem_cons_self _ _) hnoerr
    | procExit code =>
      have hstep : tunnelStep s (.procExit code) = s := rfl
      rw [List.foldl_cons, hstep]
      have hch : allChunks (TunnelEvent.procExit code :: es) = allChunks es := rfl
      rw [hch] at hurl ⊢
      exact ih s hurl hres hprom harm hkill hreg
        (fun hmem => hnoerr (List.mem_cons_of_mem _ hmem))

/-- Claim C4: tunnel provisioning always settles and never raises — the
promise always resolves (to a URL or to `null`): a `spawn` failure resolves
`null`; when no URL ever appears in the subprocess output and no
process-level error fires, the timeout kills the subprocess and resolves
`null`; and a process-level error (as first event) resolves `null` — so
tunnel provisioning can never fail a deployment. -/
theorem c4_tunnel_provisioning_never_fails (spawnOk : Bool)
    (events : List TunnelEvent) :
    (∃ v, (createPublicTunnelRun spawnOk events).promise = some v) ∧
    (spawnOk = false → (createPublicTunnelRun spawnOk events).promise = some none) ∧
    (spawnOk = true → findTunnelUrl (allChunks events) = none →
      TunnelEvent.procError ∉ events →
      (createPublicTunnelRun spawnOk events).promise = some none ∧
      (createPublicTunnelRun spawnOk events).killedProcess = true) ∧
    (∀ rest, events = TunnelEvent.procError :: rest →
      (createPublicTunnelRun spawnOk events).promise = some none) := by
  refine ⟨?_, ?_, ?_, ?_⟩
  · cases spawnOk with
    | false => exact ⟨none, rfl⟩
    | true =>
      simp only [createPublicTunnelRun, if_true]
      cases hp : (events.foldl tunnelStep tunnelInit).promise with
      | some v => exact ⟨v, tunnelTimeout_promise_keeps _ v hp⟩
      | none =>
        have hinv := foldl_tunnelStep_pending_invariant events tunnelInit
          (fun _ => ⟨rfl, rfl⟩) hp
        refine ⟨none, ?_⟩
        unfold tunnelTimeout
        rw [if_pos ⟨hinv.1, by simp [hinv.2]⟩, hp]
        rfl
  · intro h
    subst h
    rfl
  · intro hsp hurl hnoerr
    subst hsp
    simp only [createPublicTunnelRun, if_true]
    have hfold := foldl_tunnelStep_inert events tunnelInit
      (by simpa [tunnelInit] using hurl) rfl rfl rfl rfl rfl hnoerr
    rw [hfold]
    unfold tunnelTimeout
    rw [if_pos ⟨rfl, by simp [tunnelInit]⟩]
    exact ⟨rfl, rfl⟩
  · intro rest h
    subst h
    cases spawnOk with
    | false => rfl
    | true =>
      simp only [createPublicTunnelRun, if_true, List.foldl_cons]
      have hstep : (tunnelStep tunnelInit .procError).promise = some none := rfl
      exact tunnelTimeout_promise_keeps _ none
        (foldl_tunnelStep_promise_keeps rest _ none hstep)

theorem c4_tunnel_provisioning_never_fails_witness :
    (createPublicTunnelRun true [TunnelEvent.chunk ("starting tunnel".toList)]).promise =
      some none ∧
    (createPublicTunnelRun true [TunnelEvent.chunk ("starting tunnel".toList)]).killedProcess =
      true :=
  (c4_tunnel_provisioning_never_fails true
      [TunnelEvent.chunk ("starting tunnel".toList)]).2.2.1 rfl (by decide) (by decide)

/-! ## Creation responses and tunnel attachment -/

/-- Claim C5, counterexample: a successful uploaded-build-file creation
whose awaited tunnel resolves returns the tunnel URL, not the deployment's
local address — the dockerfile (and test) routes `await` tunnel acquisition
before responding, unlike the image and git routes. -/
theorem c5_dockerfile_awaited_tunnel_counterexample :
    (deployDockerfile 50 emptyState true (fun _ => 0) "d1" "c1" true true true
        true [TunnelEvent.chunk ("https://abc.trycloudflare.com".toList)] 7 "t0").1 =
      .ok "d1" "https://abc.trycloudflare.com" ∧
    (mapGet ((deployDockerfile 50 emptyState true (fun _ => 0) "d1" "c1" true true true
        true [TunnelEvent.chunk ("https://abc.trycloudflare.com".toList)] 7 "t0").2).deployments
        "d1").map Deployment.localUrl = some "http://localhost:5000" ∧
    ¬ ("https://abc.trycloudflare.com" : String) = "http://localhost:5000" := by
  decide

set_option maxHeartbeats 1000000 in
theorem deployDocker_ok_local_url (maxDeployments : Nat) (st : ServerState)
    (image appPort : String) (rand : Nat → Nat) (deployId containerId : String)
    (pullOk createOk startOk running removeOk dbInsertOk : Bool) (errorLogs now : String)
    (i u : String) (st' : ServerState)
    (h : deployDocker maxDeployments st image appPort rand deployId containerId
      pullOk createOk startOk running removeOk dbInsertOk errorLogs now = (.ok i u, st')) :
    ∃ d, mapGet st'.deployments i = some d ∧ u = d.localUrl ∧
      d.hasPublicUrl = false := by
  simp only [deployDocker] at h
  repeat' split at h
  all_goals try (exact DeployResult.noConfusion (congrArg Prod.fst h))
  all_goals
    rw [Prod.mk.injEq, DeployResult.ok.injEq] at h
    obtain ⟨⟨hi, hu⟩, hst⟩ := h
    subst hi
    subst hu
    subst hst
    exact ⟨_, mapGet_mapSet_self _ _ _, rfl, rfl⟩

theorem deployGit_ok_local_url (maxDeployments : Nat) (st : ServerState)
    (repo appPort : String) (rand : Nat → Nat) (deployId containerId : String)
    (cloneOk buildOk createOk startOk : Bool) (now : String)
    (i u : String) (st' : ServerState)
    (h : deployGit maxDeployments st repo appPort rand deployId containerId
      cloneOk buildOk createOk startOk now = (.ok i u, st')) :
    ∃ d, mapGet st'.deployments i = some d ∧ u = d.localUrl ∧
      d.hasPublicUrl = false := by
  simp only [deployGit] at h
  repeat' split at h
  all_goals try (exact DeployResult.noConfusion (congrArg Prod.fst h))
  all_goals
    rw [Prod.mk.injEq, DeployResult.ok.injEq] at h
    obtain ⟨⟨hi, hu⟩, hst⟩ := h
    subst hi
    subst hu
    subst hst
    exact ⟨_, mapGet_mapSet_self _ _ _, rfl, rfl⟩

theorem deployDockerfile_ok_url (maxDeployments : Nat) (st : ServerState)
    (fileUploaded : Bool) (rand : Nat → Nat) (deployId containerId : String)
    (buildOk createOk startOk spawnOk : Bool) (events : List TunnelEvent)
    (procId : Nat) (now : String) (i u : String) (st' : ServerState)
    (h : deployDockerfile maxDeployments st fileUploaded rand deployId containerId
      buildOk createOk startOk spawnOk events procId now = (.ok i u, st')) :
    (∀ tu, tunnelResolvedUrl (createPublicTunnelRun spawnOk events) = some tu →
      u = String.mk tu) ∧
    (tunnelResolvedUrl (createPublicTunnelRun spawnOk events) = none →
      ∃ d, mapGet st'.deployments i = some d ∧ u = d.localUrl) := by
  simp only [deployDockerfile] at h
  repeat' split at h
  all_goals try (exact DeployResult.noConfusion (congrArg Prod.fst h))
  all_goals
    rw [Prod.mk.injEq, DeployResult.ok.injEq] at h
    obtain ⟨⟨hi, hu⟩, hst⟩ := h
    subst hi
    subst hu
    subst hst
  all_goals
    refine ⟨fun tu' htu' => ?_, fun hnone => ?_⟩ <;>
      simp_all [mapGet_mapSet_self]

theorem deployTest_ok_url (maxDeployments : Nat) (st : ServerState)
    (rand : Nat → Nat) (deployId containerId : String)
    (pullOk createOk startOk spawnOk : Bool) (events : List TunnelEvent)
    (procId : Nat) (now : String) (i u : String) (st' : ServerState)
    (h : deployTest maxDeployments st rand deployId containerId
      pullOk createOk startOk spawnOk events procId now = (.ok i u, st')) :
    (∀ tu, tunnelResolvedUrl (createPublicTunnelRun spawnOk events) = some tu →
      u = String.mk tu) ∧
    (tunnelResolvedUrl (createPublicTunnelRun spawnOk events) = none →
      ∃ d, mapGet st'.deployments i = some d ∧ u = d.localUrl) := by
  simp only [deployTest] at h
  repeat' split at h
  all_goals try (exact DeployResult.noConfusion (congrArg Prod.fst h))
  all_goals
    rw [Prod.mk.injEq, DeployResult.ok.injEq] at h
    obtain ⟨⟨hi, hu⟩, hst⟩ := h
    subst hi
    subst hu
    subst hst
  all_goals
    refine ⟨fun tu' htu' => ?_, fun hnone => ?_⟩ <;>
      simp_all [mapGet_mapSet_self]

theorem applyTunnelBackground_absent_record (st : ServerState) (deployId : String)
    (spawnOk : Bool) (events : List TunnelEvent) (procId : Nat)
    (h : mapGet st.deployments deployId = none) :
    (applyTunnelBackground st deployId spawnOk events procId).deployments =
      st.deployments := by
  simp only [applyTunnelBackground]
  cases hr : (createPublicTunnelRun spawnOk events).registered <;>
    cases ht : tunnelResolvedUrl (createPublicTunnelRun spawnOk events) <;>
      simp [hr, ht, h]

theorem applyTunnelBackground_present_record (st : ServerState) (deployId : String)
    (spawnOk : Bool) (events : List TunnelEvent) (procId : Nat)
    (dep : Deployment) (tu : List Char)
    (hdep : mapGet st.deployments deployId = some dep)
    (ht : tunnelResolvedUrl (createPublicTunnelRun spawnOk events) = some tu) :
    mapGet (applyTunnelBackground st deployId spawnOk events procId).deployments
        deployId =
      some { dep with url := String.mk tu, hasPublicUrl := true } := by
  simp only [applyTunnelBackground]
  cases hr : (createPublicTunnelRun spawnOk events).registered <;>
    simp [hr, ht, hdep, mapGet_mapSet_self]

/-- Claim C5 as amended: for successful image and git creations the HTTP
response is produced with the deployment's local address as the returned
url, tunnel acquisition running detached and mutating the record only after
the response (and doing nothing when the record no longer exists); but for
uploaded-build-file and test creations the handler `await`s tunnel
provisioning before responding, and the returned url is the tunnel URL
whenever provisioning resolves one (the local address only otherwise). -/
theorem c5_response_url_and_tunnel_attachment :
    (∀ (maxDeployments : Nat) (st : ServerState) (image appPort : String)
        (rand : Nat → Nat) (deployId containerId : String)
        (pullOk createOk startOk running removeOk dbInsertOk : Bool)
        (errorLogs now i u : String) (st' : ServerState),
      deployDocker maxDeployments st image appPort rand deployId containerId
          pullOk createOk startOk running removeOk dbInsertOk errorLogs now = (.ok i u, st') →
      ∃ d, mapGet st'.deployments i = some d ∧ u = d.localUrl ∧
        d.hasPublicUrl = false) ∧
    (∀ (maxDeployments : Nat) (st : ServerState) (repo appPort : String)
        (rand : Nat → Nat) (deployId containerId : String)
        (cloneOk buildOk createOk startOk : Bool) (now i u : String)
        (st' : ServerState),
      deployGit maxDeployments st repo appPort rand deployId containerId
          cloneOk buildOk createOk startOk now = (.ok i u, st') →
      ∃ d, mapGet st'.deployments i = some d ∧ u = d.localUrl ∧
        d.hasPublicUrl = false) ∧
    (∀ (st : ServerState) (deployId : String) (spawnOk : Bool)
        (events : List TunnelEvent) (procId : Nat),
      mapGet st.deployments deployId = none →
      (applyTunnelBackground st deployId spawnOk events procId).deployments =
        st.deployments) ∧
    (∀ (st : ServerState) (deployId : String) (spawnOk : Bool)
        (events : List TunnelEvent) (procId : Nat) (dep : Deployment) (tu : List Char),
      mapGet st.deployments deployId = some dep →
      tunnelResolvedUrl (createPublicTunnelRun spawnOk events) = some tu →
      mapGet (applyTunnelBackground st deployId spawnOk events procId).deployments
          deployId = some { dep with url := String.mk tu, hasPublicUrl := true }) ∧
    (∀ (maxDeployments : Nat) (st : ServerState) (fileUploaded : Bool)
        (rand : Nat → Nat) (deployId containerId : String)
        (buildOk createOk startOk spawnOk : Bool) (events : List TunnelEvent)
        (procId : Nat) (now i u : String) (st' : ServerState),
      deployDockerfile maxDeployments st fileUploaded rand deployId containerId
          buildOk createOk startOk spawnOk events procId now = (.ok i u, st') →
      (∀ tu, tunnelResolvedUrl (createPublicTunnelRun spawnOk events) = some tu →
        u = String.mk tu) ∧
      (tunnelResolvedUrl (createPublicTunnelRun spawnOk events) = none →
        ∃ d, mapGet st'.deployments i = some d ∧ u = d.localUrl)) ∧
    (∀ (maxDeployments : Nat) (st : ServerState) (rand : Nat → Nat)
        (deployId containerId : String)
        (pullOk createOk startOk spawnOk : Bool) (events : List TunnelEvent)
        (procId : Nat) (now i u : String) (st' : ServerState),
      deployTest maxDeployments st rand deployId containerId
          pullOk createOk startOk spawnOk events procId now = (.ok i u, st') →
      (∀ tu, tunnelResolvedUrl (createPublicTunnelRun spawnOk events) = some tu →
        u = String.mk tu) ∧
      (tunnelResolvedUrl (createPublicTunnelRun spawnOk events) = none →
        ∃ d, mapGet st'.deployments i = some d ∧ u = d.localUrl)) := by
  refine ⟨?_, ?_, ?_, ?_, ?_, ?_⟩
  · intro maxD st image appPort rand deployId containerId pullOk createOk startOk
      running removeOk dbInsertOk errorLogs now i u st' h
    exact deployDocker_ok_local_url maxD st image appPort rand deployId containerId
      pullOk createOk startOk running removeOk dbInsertOk errorLogs now i u st' h
  · intro maxD st repo appPort rand deployId containerId cloneOk buildOk createOk
      startOk now i u st' h
    exact deployGit_ok_local_url maxD st repo appPort rand deployId containerId
      cloneOk buildOk createOk startOk now i u st' h
  · intro st deployId spawnOk events procId h
    exact applyTunnelBackground_absent_record st deployId spawnOk events procId h
  · intro st deployId spawnOk events procId dep tu h ht
    exact applyTunnelBackground_present_record st deployId spawnOk events procId
      dep tu h ht
  · intro maxD st fileUploaded rand deployId containerId buildOk createOk startOk
      spawnOk events procId now i u st' h
    exact deployDockerfile_ok_url maxD st fileUploaded rand deployId containerId
      buildOk createOk startOk spawnOk events procId now i u st' h
  · intro maxD st rand deployId containerId pullOk createOk startOk spawnOk events
      procId now i u st' h
    exact deployTest_ok_url maxD st rand deployId containerId pullOk createOk
      startOk spawnOk events procId now i u st' h

theorem c5_response_url_and_tunnel_attachment_witness :
    (∃ d, mapGet (deployDocker 50 emptyState "nginx:alpine" "80" (fun _ => 0)
        "d1" "c1" true true true true true true "logs" "t0").2.deployments "d1" = some d ∧
      "http://localhost:5000" = d.localUrl ∧ d.hasPublicUrl = false) ∧
    (applyTunnelBackground emptyState "d1" true [] 7).deployments =
      emptyState.deployments :=
  ⟨c5_response_url_and_tunnel_attachment.1 50 emptyState "nginx:alpine" "80"
      (fun _ => 0) "d1" "c1" true true true true true true "logs" "t0" "d1"
      "http://localhost:5000"
      (deployDocker 50 emptyState "nginx:alpine" "80" (fun _ => 0)
        "d1" "c1" true true true true true true "logs" "t0").2 (by decide),
   c5_response_url_and_tunnel_attachment.2.2.1 emptyState "d1" true [] 7 (by decide)⟩

end CloudDeploy
